import Mathlib

/-!
Verification of the kanban knowledge-base search engine against its design
specification.

The development shallowly embeds the two source files:
- `search-agent.js` (the chat/CLI agent): `loadKB`, `localSearch`, `apiSearch`,
  `search`;
- the KB search API server: `loadKBData`, `cosineSimilarity`, `semanticSearch`,
  `textSearch`, and the `POST /search` handler (`postSearch` below).

Modelling conventions:
- JS strings are Lean `String`s; all character-level work (lower-casing,
  substring tests, whitespace splitting, trimming) is done on `List Char`
  because those functions reduce inside the kernel.
- JS numbers carrying scores are `ℕ` for the agent's lexical scorer (all its
  increments are the non-negative integers 1/10/5/3/2/2/1) and `ℚ` for the
  server (it divides).  A JS number that can be NaN is `Option ℚ` with `none`
  for a non-finite value; arithmetic on `none` yields `none`, as NaN does.
- `Math.sqrt` is modelled by `Rat.sqrt`, which agrees with the real square
  root on the perfect-square inputs used in concrete theorems; no theorem
  depends on its value elsewhere.
- `Math.round` is `jsRound`, the floor of `q + 1/2` (JS rounds half toward
  positive infinity), computed on numerator/denominator so it reduces.
- Timestamps (entry dates, `now`, file mtimes) are already-parsed numbers:
  dates and `now` are `ℚ` epoch milliseconds, mtimes are `ℕ`.  An entry whose
  `date` string is absent, empty or unparsable is modelled with `date = none`
  (in all those cases the source applies no recency boost and no date filter).
- Outbound HTTP is a parameter: the agent's fetch outcome is a
  `RemoteOutcome`, the server's query-embedding call an `Except`, and the
  narration provider an `Option String`.  A JSON object field that the source
  never writes (such as `fallback` on the server response) is modelled as the
  field with its JS-falsy value `false`.
- `Array.prototype.sort` with comparator `(a, b) => b.score - a.score` is a
  stable descending sort; `sortBy` below is a stable insertion sort producing
  the same ordering for this consistent comparator.  The relative order of
  NaN-scored entries is unspecified in JS and no theorem depends on it.
-/

/-! ### Character-level string primitives (JS `toLowerCase`, `includes`,
`split(/\s+/)`, `trim`) -/

/-- Lower-case a character list (JS `toLowerCase` on the ASCII data used). -/
def lowerList (l : List Char) : List Char := l.map Char.toLower

/-- Does `l` start with `p`?  (Helper for the substring test.) -/
def listStarts : List Char → List Char → Bool
  | _, [] => true
  | [], _ :: _ => false
  | a :: as, b :: bs => a == b && listStarts as bs

/-- JS `hay.includes(needle)`: `needle` occurs contiguously in `hay`.
The empty needle is found in every string, as in JS. -/
def listSub (hay needle : List Char) : Bool :=
  listStarts hay needle ||
    match hay with
    | [] => false
    | _ :: t => listSub t needle

/-- Split into maximal runs of non-whitespace (the non-empty tokens of JS
`split(/\s+/)`; the possible leading empty token is removed by the
length-`> 2` filter applied by every caller). -/
def wordsAux (cur : List Char) : List Char → List (List Char)
  | [] => if cur.isEmpty then [] else [cur.reverse]
  | c :: t =>
    if c.isWhitespace then
      if cur.isEmpty then wordsAux [] t else cur.reverse :: wordsAux [] t
    else wordsAux (c :: cur) t

/-- Whitespace-separated words of a character list. -/
def words (l : List Char) : List (List Char) := wordsAux [] l

/-- Drop leading whitespace. -/
def dropWsL : List Char → List Char
  | [] => []
  | c :: t => if c.isWhitespace then dropWsL t else c :: t

/-- JS `trim`: drop leading and trailing whitespace. -/
def trimChars (l : List Char) : List Char :=
  (dropWsL (dropWsL l.reverse).reverse).reverse.reverse

/-! ### Data model -/

/-- A knowledge-base entry, as loaded from `genai-kb.json`.  `summary`,
`source`, `tags` and `date` may be absent in the JSON; `title`, `category`,
`id` and `url` are always present. -/
structure Entry where
  id : ℕ
  title : String
  summary : Option String
  category : String
  source : Option String
  tags : List String
  date : Option ℚ
  url : String
deriving DecidableEq

/-- The KB snapshot: `{ entries, categories, ... }`. -/
structure KB where
  entries : List Entry
  categories : List String
deriving DecidableEq

/-! ### Stable sort (embedding of `Array.prototype.sort` with the
`(a, b) => b.score - a.score` comparator) -/

/-- Insert `x` before the first element `y` with `le x y`. -/
def insertBy {α : Type} (le : α → α → Bool) (x : α) : List α → List α
  | [] => [x]
  | y :: t => if le x y then x :: y :: t else y :: insertBy le x t

/-- Stable insertion sort: equal elements keep their original order. -/
def sortBy {α : Type} (le : α → α → Bool) : List α → List α
  | [] => []
  | x :: t => insertBy le x (sortBy le t)

/-! ### Agent lexical scorer (`localSearch` in `search-agent.js`) -/

/-- `${entry.summary || ''}`: absent summary renders as the empty string. -/
def optText : Option String → List Char
  | some s => s.data
  | none => []

/-- `${entry.source}` inside a template literal: an absent field renders as
the string `undefined` in JS. -/
def srcText : Option String → List Char
  | some s => s.data
  | none => "undefined".data

/-- `(entry.tags || []).join(' ')`. -/
def joinSpace : List String → List Char
  | [] => []
  | [t] => t.data
  | t :: ts => t.data ++ ' ' :: joinSpace ts

/-- The searchable text after the title inside the concatenation. -/
def restChars (e : Entry) : List Char :=
  ' ' :: optText e.summary ++ ' ' :: e.category.data ++ ' ' :: srcText e.source
    ++ ' ' :: joinSpace e.tags

/-- The lower-cased concatenation
`${title} ${summary || ''} ${category} ${source} ${tags.join(' ')}`
shared verbatim by `localSearch` and the server's `textSearch`. -/
def entryText (e : Entry) : List Char := lowerList (e.title.data ++ restChars e)

/-- The normalized query `query.toLowerCase()`. -/
def queryLower (q : String) : List Char := lowerList q.data

/-- `queryLower.split(/\s+/).filter(w => w.length > 2)`. -/
def queryWords (q : String) : List (List Char) :=
  (words (queryLower q)).filter (fun w => decide (2 < w.length))

/-- The lower-cased title. -/
def titleLower (e : Entry) : List Char := lowerList e.title.data

/-- One point per surviving query token occurring in the searchable text
(the `queryWords.forEach` loop; duplicate tokens count twice, as there). -/
def wordScore (q : String) (e : Entry) : ℕ :=
  ((queryWords q).filter (fun w => listSub (entryText e) w)).length

/-- `titleLower.includes(queryLower)`. -/
def titleHit (q : String) (e : Entry) : Bool := listSub (titleLower e) (queryLower q)

/-- `queryWords.every(w => titleLower.includes(w))` (vacuously true when no
token survives the length filter, as `every` is on the empty array). -/
def allTokensHit (q : String) (e : Entry) : Bool :=
  (queryWords q).all (fun w => listSub (titleLower e) w)

/-- `entry.summary?.toLowerCase().includes(queryLower)`; an absent summary is
falsy via optional chaining. -/
def summaryHit (q : String) (e : Entry) : Bool :=
  match e.summary with
  | some s => listSub (lowerList s.data) (queryLower q)
  | none => false

/-- `entry.source?.toLowerCase().includes(queryLower)`. -/
def sourceHit (q : String) (e : Entry) : Bool :=
  match e.source with
  | some s => listSub (lowerList s.data) (queryLower q)
  | none => false

/-- The recency boost: with `daysOld = (now - date) / 86400000`, add 2 when
`daysOld < 30`, else 1 when `daysOld < 90`, else 0; no date, no boost. -/
def dateBoost (now : ℚ) (e : Entry) : ℕ :=
  match e.date with
  | some d =>
    if (now - d) / 86400000 < 30 then 2
    else if (now - d) / 86400000 < 90 then 1 else 0
  | none => 0

/-- The full lexical score of `localSearch`: token hits, then the title boost
(10 for the whole query, else 5 when every token hits), the summary boost 3,
the source boost 2, and the recency boost. -/
def localScore (q : String) (now : ℚ) (e : Entry) : ℕ :=
  wordScore q e
    + (if titleHit q e then 10 else if allTokensHit q e then 5 else 0)
    + (if summaryHit q e then 3 else 0)
    + (if sourceHit q e then 2 else 0)
    + dateBoost now e

/-- A scored entry of the agent (the `matches` array of recorded tokens is
carried by no claim and is omitted). -/
structure LScored where
  entry : Entry
  score : ℕ
deriving DecidableEq

/-- `data.entries.map(entry => ({entry, score}))`. -/
def localScored (q : String) (now : ℚ) (kb : KB) : List LScored :=
  kb.entries.map (fun e => ⟨e, localScore q now e⟩)

/-- `if (category && category !== 'all')` then keep entries whose category
matches case-insensitively.  The empty string is falsy, `'all'` is compared
exactly. -/
def catFilterAgent (c : Option String) (l : List LScored) : List LScored :=
  match c with
  | none => l
  | some s =>
    if s = "" ∨ s = "all" then l
    else l.filter (fun r => lowerList r.entry.category.data == lowerList s.data)

/-- The agent's descending-score comparator `(a, b) => b.score - a.score`. -/
def lexDesc (a b : LScored) : Bool := decide (b.score ≤ a.score)

/-- `localSearch(query, { category, limit })`: score all entries, filter by
category, sort descending, keep strictly positive scores, truncate. -/
def localSearch (q : String) (c : Option String) (limit : ℕ) (now : ℚ)
    (kb : KB) : List LScored :=
  (((sortBy lexDesc (catFilterAgent c (localScored q now kb))).filter
    (fun r => decide (0 < r.score))).take limit)

/-! ### Server text scorer (`textSearch` in the API server) -/

/-- The raw (pre-normalization) text score: one per token in the searchable
text, 5 when the title contains the whole query, 3 when the summary does. -/
def textRaw (q : String) (e : Entry) : ℕ :=
  wordScore q e + (if titleHit q e then 5 else 0) + (if summaryHit q e then 3 else 0)

/-- `score / (queryWords.length + 5)`. -/
def textScore (q : String) (e : Entry) : ℚ :=
  (textRaw q e : ℚ) / (((queryWords q).length : ℚ) + 5)

/-- A scored entry of the server.  `score = none` models a non-finite JS
number (NaN arising in `cosineSimilarity`). -/
structure QScored where
  entry : Entry
  score : Option ℚ
deriving DecidableEq

/-- Value used by the sort comparator; the order among NaN scores is
unspecified in JS, and no theorem depends on this choice. -/
def qVal (s : Option ℚ) : ℚ := s.getD 0

/-- The server's descending-score comparator. -/
def qDesc (a b : QScored) : Bool := decide (qVal b.score ≤ qVal a.score)

/-- Server category filter: `category && category !== 'all'`, then
`r.entry.category === category` (exact match, unlike the agent). -/
def catFilterServer (c : Option String) (l : List QScored) : List QScored :=
  match c with
  | none => l
  | some s =>
    if s = "" ∨ s = "all" then l
    else l.filter (fun r => r.entry.category == s)

/-- `!r.entry.date || r.entry.date >= dateFrom` (dateless entries pass). -/
def dateFromFilter (df : Option ℚ) (l : List QScored) : List QScored :=
  match df with
  | none => l
  | some d =>
    l.filter (fun r => match r.entry.date with
      | none => true
      | some x => decide (d ≤ x))

/-- `!r.entry.date || r.entry.date <= dateTo`. -/
def dateToFilter (dt : Option ℚ) (l : List QScored) : List QScored :=
  match dt with
  | none => l
  | some d =>
    l.filter (fun r => match r.entry.date with
      | none => true
      | some x => decide (x ≤ d))

/-- `r.score > 0` on a possibly-NaN score (NaN compares false). -/
def positiveQ (r : QScored) : Bool :=
  match r.score with
  | some s => decide (0 < s)
  | none => false

/-- `textSearch(query, options)`: score, sort, filter by category and date
range, keep strictly positive scores, truncate. -/
def textSearch (q : String) (c : Option String) (df dt : Option ℚ) (limit : ℕ)
    (kb : KB) : List QScored :=
  ((dateToFilter dt (dateFromFilter df (catFilterServer c
    (sortBy qDesc (kb.entries.map (fun e => ⟨e, some (textScore q e)⟩)))))).filter
    positiveQ).take limit

/-! ### Cosine similarity (`cosineSimilarity` in the API server)

The loop runs over the indices of `a`; an out-of-range read of `b` yields
`undefined`, whose arithmetic is NaN (`none`).  There is no dimensionality
check in the source. -/

/-- JS addition lifted to possibly-NaN values. -/
def jsAdd : Option ℚ → Option ℚ → Option ℚ
  | some a, some b => some (a + b)
  | _, _ => none

/-- JS multiplication lifted to possibly-NaN values. -/
def jsMul : Option ℚ → Option ℚ → Option ℚ
  | some a, some b => some (a * b)
  | _, _ => none

/-- `Math.sqrt` on a possibly-NaN value (see the header note on `Rat.sqrt`). -/
def jsSqrt : Option ℚ → Option ℚ
  | some a => some (Rat.sqrt a)
  | none => none

/-- JS division; a zero divisor yields a non-finite value (NaN or ±Infinity),
collapsed to `none`. -/
def jsDiv : Option ℚ → Option ℚ → Option ℚ
  | some a, some b => if b = 0 then none else some (a / b)
  | _, _ => none

/-- The accumulators `(dotProduct, normA, normB)` of the `for` loop over the
indices of `a`.  When `b` is exhausted, `b[i]` is `undefined` and both
`dotProduct` and `normB` become NaN while `normA` keeps accumulating. -/
def cosineAcc : List ℚ → List ℚ → Option ℚ × Option ℚ × Option ℚ
  | [], _ => (some 0, some 0, some 0)
  | x :: xs, y :: ys =>
    let r := cosineAcc xs ys
    (jsAdd r.1 (some (x * y)), jsAdd r.2.1 (some (x * x)), jsAdd r.2.2 (some (y * y)))
  | x :: xs, [] =>
    let r := cosineAcc xs []
    (none, jsAdd r.2.1 (some (x * x)), none)

/-- `dot / (sqrt(normA) * sqrt(normB))`. -/
def cosineSimilarity (a b : List ℚ) : Option ℚ :=
  let r := cosineAcc a b
  jsDiv r.1 (jsMul (jsSqrt r.2.1) (jsSqrt r.2.2))

/-! ### Semantic search (`semanticSearch` in the API server) -/

/-- The embeddings cache: entry id to stored embedding. -/
abbrev EmbCache := List (ℕ × List ℚ)

/-- `cache[entry.id]`. -/
def cacheGet (c : EmbCache) (i : ℕ) : Option (List ℚ) :=
  (c.find? (fun p => p.1 == i)).map Prod.snd

/-- The scored record for one entry: a cache miss scores `0`, a hit scores
the cosine similarity to the query embedding. -/
def semScoreOf (cache : EmbCache) (qv : List ℚ) (e : Entry) : QScored :=
  match cacheGet cache e.id with
  | none => ⟨e, some 0⟩
  | some emb => ⟨e, cosineSimilarity qv emb⟩

/-- `data.entries.map(...)` with the per-entry scoring above. -/
def semScored (kb : KB) (cache : EmbCache) (qv : List ℚ) : List QScored :=
  kb.entries.map (semScoreOf cache qv)

/-- The vector ranking before truncation: sort all scored entries, then apply
the category and date filters.  No score threshold is applied. -/
def semRanking (c : Option String) (df dt : Option ℚ) (kb : KB)
    (cache : EmbCache) (qv : List ℚ) : List QScored :=
  dateToFilter dt (dateFromFilter df (catFilterServer c (sortBy qDesc (semScored kb cache qv))))

/-- `semanticSearch(query, options)`: with an empty cache or no provider key
it falls back to `textSearch`; otherwise it awaits the query embedding (a
failed call propagates as an error) and ranks by cosine similarity. -/
def semanticSearch (q : String) (c : Option String) (df dt : Option ℚ)
    (limit : ℕ) (kb : KB) (cache : EmbCache) (hasKey : Bool)
    (qe : Except Unit (List ℚ)) : Except Unit (List QScored) :=
  if cache.isEmpty || !hasKey then .ok (textSearch q c df dt limit kb)
  else
    match qe with
    | .error e => .error e
    | .ok qv => .ok ((semRanking c df dt kb cache qv).take limit)

/-! ### The `POST /search` handler -/

/-- JS `Math.round`: the floor of `q + 1/2`, computed as
`(2 num + den) fdiv (2 den)` so that it reduces on concrete inputs. -/
def jsRound (q : ℚ) : ℤ := (2 * q.num + (q.den : ℤ)).fdiv (2 * (q.den : ℤ))

/-- An entry as returned to the caller, with its displayed relevance.
`relevance = none` models NaN. -/
structure SDisplay where
  entry : Entry
  relevance : Option ℤ
deriving DecidableEq

/-- `results.map(r => ({...r.entry, relevance: Math.round(r.score * 100)}))`. -/
def serverDisplay (l : List QScored) : List SDisplay :=
  l.map (fun r => ⟨r.entry, r.score.map (fun s => jsRound (s * 100))⟩)

/-- The server's success payload `{ summary, results, total }`.  The JSON has
no degraded/fallback field. -/
structure ServerEnvelope where
  summary : Option String
  results : List SDisplay
  total : ℕ
deriving DecidableEq

/-- The `POST /search` response: 400 for a missing/blank query, 500 for a
propagated provider error, otherwise the payload. -/
inductive ServerResp
  | badRequest
  | serverError
  | ok (env : ServerEnvelope)
deriving DecidableEq

/-- What the handler touched: whether a search ran, whether the embedding
provider was called, whether the narration provider was called. -/
structure STrace where
  searched : Bool
  embedCalled : Bool
  summaryCalled : Bool
deriving DecidableEq

/-- The request body of `POST /search`. -/
structure ServerReq where
  query : Option String
  category : Option String
  dateFrom : Option ℚ
  dateTo : Option ℚ
  limit : ℕ
  includeSummary : Bool
deriving DecidableEq

/-- `!query || !query.trim()` negated: the query is present and not blank. -/
def queryValid : Option String → Bool
  | none => false
  | some s => if s.data == ([] : List Char) then false else !(trimChars s.data == ([] : List Char))

/-- The zero-result message of the handler (text abbreviated, unused by any
theorem). -/
def noMatchMsg : String := "No entries matched your query."

/-- The default summary when narration is absent. -/
def foundMsg (n : ℕ) : String := "Found " ++ toString n ++ " relevant entries."

/-- The `POST /search` handler.  `narration` is the outcome of
`generateSummary` (best-effort, `none` when all providers fail or none is
configured); it is consulted only when `includeSummary` is set and results
are non-empty. -/
def postSearch (req : ServerReq) (kb : KB) (cache : EmbCache) (hasKey : Bool)
    (qe : Except Unit (List ℚ)) (narration : Option String) :
    ServerResp × STrace :=
  if !queryValid req.query then (.badRequest, ⟨false, false, false⟩)
  else
    let emb := !cache.isEmpty && hasKey
    match semanticSearch (req.query.getD "") req.category req.dateFrom
        req.dateTo req.limit kb cache hasKey qe with
    | .error _ => (.serverError, ⟨true, emb, false⟩)
    | .ok l =>
      if l.isEmpty then (.ok ⟨some noMatchMsg, [], 0⟩, ⟨true, emb, false⟩)
      else
        (.ok ⟨some ((if req.includeSummary then narration else none).getD (foundMsg l.length)),
          serverDisplay l, l.length⟩, ⟨true, emb, req.includeSummary⟩)

/-! ### The agent (`apiSearch` and `search` in `search-agent.js`) -/

/-- The envelope the agent hands back: the server payload passed through, or
the local fallback.  `fallback`/`localOnly` model the `fallback: true` and
`local: true` fields; a field the source does not write is `false`. -/
structure AgentEnvelope where
  summary : Option String
  results : List SDisplay
  total : ℕ
  fallback : Bool
  localOnly : Bool
deriving DecidableEq

/-- `response.ok`: status in the 2xx range. -/
def statusOk (s : ℕ) : Bool := decide (200 ≤ s) && decide (s < 300)

/-- The outcome of the agent's `fetch` of `POST /search`: a network failure
(rejected promise), or a response with a status and a body that either parses
to the server payload or fails to parse (`none`). -/
inductive RemoteOutcome
  | netFail
  | response (status : ℕ) (body : Option ServerEnvelope)

/-- `{...r.entry, relevance: Math.min(r.score * 10, 100)}` on the agent's
lexical fallback path. -/
def displayLex (r : LScored) : SDisplay := ⟨r.entry, some ((min (r.score * 10) 100 : ℕ) : ℤ)⟩

/-- The fallback envelope built inside `apiSearch`'s catch: local results
with `fallback: true`.  Only `category` and `limit` reach `localSearch`. -/
def apiFallbackEnv (q : String) (c : Option String) (limit : ℕ) (now : ℚ)
    (kb : KB) : AgentEnvelope :=
  ⟨none, (localSearch q c limit now kb).map displayLex,
    (localSearch q c limit now kb).length, true, false⟩

/-- `apiSearch`: return the server payload on a 2xx response with a parsed
body; any thrown error (network failure, `!response.ok`, body parse failure)
is caught and answered with the local fallback. -/
def apiSearch (q : String) (c : Option String) (limit : ℕ) (now : ℚ) (kb : KB)
    (ro : RemoteOutcome) : AgentEnvelope :=
  match ro with
  | .response s (some env) =>
    if statusOk s then ⟨env.summary, env.results, env.total, false, false⟩
    else apiFallbackEnv q c limit now kb
  | .response _ none => apiFallbackEnv q c limit now kb
  | .netFail => apiFallbackEnv q c limit now kb

/-- The envelope of the agent's `useApi: false` path (`local: true`). -/
def localEnvelope (q : String) (c : Option String) (limit : ℕ) (now : ℚ)
    (kb : KB) : AgentEnvelope :=
  ⟨none, (localSearch q c limit now kb).map displayLex,
    (localSearch q c limit now kb).length, false, true⟩

/-- What `search` returns (the `formatted` rendering is display-only and out
of scope). -/
structure SearchResult where
  success : Bool
  data : AgentEnvelope
deriving DecidableEq

/-- The agent's `search(query, options)`: route through the API when
`useApi`, otherwise search locally.  Both paths report success. -/
def search (q : String) (c : Option String) (limit : ℕ) (useApi : Bool)
    (now : ℚ) (kb : KB) (ro : RemoteOutcome) : SearchResult :=
  if useApi then ⟨true, apiSearch q c limit now kb ro⟩
  else ⟨true, localEnvelope q c limit now kb⟩

/-! ### The two KB loaders -/

/-- The backing file as seen at a call: its mtime and its parsed content. -/
structure KBFile where
  mtime : ℕ
  kb : KB
deriving DecidableEq

/-- The agent's module-level cache (`kbCache`, `kbLastModified`). -/
structure AgentKBState where
  kbCache : Option KB
  kbLastModified : Option ℕ
deriving DecidableEq

/-- `loadKB` in `search-agent.js`: reparse when there is no cache or the
mtime changed, else return the cached snapshot unchanged. -/
def loadKB (f : KBFile) (st : AgentKBState) : AgentKBState × KB :=
  match st.kbCache, st.kbLastModified with
  | some k, some m =>
    if m = f.mtime then (st, k) else (⟨some f.kb, some f.mtime⟩, f.kb)
  | _, _ => (⟨some f.kb, some f.mtime⟩, f.kb)

/-- `loadKBData` in the API server: `if (kbData) return kbData` — the cache
is never invalidated, the mtime is not consulted. -/
def loadKBData (f : KBFile) (st : Option KB) : Option KB × KB :=
  match st with
  | some k => (some k, k)
  | none => (some f.kb, f.kb)

/-! ### Filter predicates (the pointwise conditions of the server filters) -/

/-- The pointwise condition of `catFilterServer`. -/
def passCat (c : Option String) (e : Entry) : Bool :=
  match c with
  | none => true
  | some s => if s = "" ∨ s = "all" then true else e.category == s

/-- The pointwise condition of `dateFromFilter`. -/
def passFrom (df : Option ℚ) (e : Entry) : Bool :=
  match df with
  | none => true
  | some d =>
    match e.date with
    | none => true
    | some x => decide (d ≤ x)

/-- The pointwise condition of `dateToFilter`. -/
def passTo (dt : Option ℚ) (e : Entry) : Bool :=
  match dt with
  | none => true
  | some d =>
    match e.date with
    | none => true
    | some x => decide (x ≤ d)

/-- An entry survives all three structural filters of the server. -/
def passesServer (c : Option String) (df dt : Option ℚ) (e : Entry) : Bool :=
  passCat c e && passFrom df e && passTo dt e

/-! ### Concrete sample data used by witnesses and counterexamples -/

/-- A minimal entry: title only, no optional fields. -/
def entPlain : Entry := ⟨1, "hello", none, "misc", none, [], none, "u"⟩

/-- A one-entry knowledge base. -/
def kbOne : KB := ⟨[entPlain], []⟩

/-- An entry whose title is exactly the query used against it. -/
def entKarp : Entry := ⟨1, "karpathy", none, "research", some "x", [], none, "u"⟩

/-- An entry matched by the query in title, text and summary, so that the
server text score exceeds 1. -/
def entSumm : Entry := ⟨1, "karpathy", some "karpathy stuff", "research", some "x", [], none, "u"⟩

/-- The knowledge base holding `entSumm`. -/
def kbSumm : KB := ⟨[entSumm], []⟩

/-- A `POST /search` body: valid query, no filters, no narration requested. -/
def reqSumm : ServerReq := ⟨some "karpathy", none, none, none, 10, false⟩

/-- The payload the server produces for `reqSumm` over `kbSumm` with an empty
embedding cache and no provider key (established by `postSearch_kbSumm`). -/
def envSumm : ServerEnvelope := ⟨some (foundMsg 1), [⟨entSumm, some 150⟩], 1⟩

/-- Entries distinguishing truncated category-filtered from unfiltered
rankings: `entA` outranks `entB`, they live in different categories. -/
def entA : Entry := ⟨1, "alpha match", some "great match", "x", none, [], none, "u1"⟩

/-- The lower-ranked entry of the pair, in category `y`. -/
def entB : Entry := ⟨2, "match", none, "y", none, [], none, "u2"⟩

/-- The two-entry knowledge base for the truncation counterexample. -/
def kbAB : KB := ⟨[entA, entB], []⟩

/-- An empty knowledge base, distinct from `kbOne`. -/
def kbNil : KB := ⟨[], []⟩

/-! ## Helper lemmas -/

theorem listStarts_nil (h : List Char) : listStarts h [] = true := by
  cases h <;> rfl

theorem listSub_nil (h : List Char) : listSub h [] = true := by
  cases h <;> simp [listSub, listStarts_nil]

theorem listStarts_append (a b n : List Char) (h : listStarts a n = true) :
    listStarts (a ++ b) n = true := by
  induction n generalizing a with
  | nil => exact listStarts_nil _
  | cons c t ih =>
    cases a with
    | nil => simp [listStarts] at h
    | cons x xs =>
      simp only [List.cons_append, listStarts, Bool.and_eq_true] at h ⊢
      exact ⟨h.1, ih xs h.2⟩

theorem listSub_append_right (a b n : List Char) (h : listSub a n = true) :
    listSub (a ++ b) n = true := by
  induction a with
  | nil =>
    have hn : n = [] := by
      cases n with
      | nil => rfl
      | cons c t => simp [listSub, listStarts] at h
    subst hn
    simpa using listSub_nil b
  | cons x xs ih =>
    simp only [listSub, List.cons_append, Bool.or_eq_true] at h ⊢
    cases h with
    | inl h1 => exact Or.inl (listStarts_append _ b _ h1)
    | inr h2 => exact Or.inr (ih h2)

theorem entryText_decomp (e : Entry) :
    entryText e = titleLower e ++ lowerList (restChars e) := by
  simp [entryText, titleLower, lowerList, List.map_append]

theorem listSub_of_title (e : Entry) (w : List Char)
    (h : listSub (titleLower e) w = true) : listSub (entryText e) w = true := by
  rw [entryText_decomp]
  exact listSub_append_right _ _ _ h

theorem insertBy_perm {α : Type} (le : α → α → Bool) (x : α) (l : List α) :
    List.Perm (insertBy le x l) (x :: l) := by
  induction l with
  | nil => exact List.Perm.refl _
  | cons y t ih =>
    rw [insertBy]
    split
    · exact List.Perm.refl _
    · exact (ih.cons y).trans (List.Perm.swap x y t)

theorem sortBy_perm {α : Type} (le : α → α → Bool) (l : List α) :
    List.Perm (sortBy le l) l := by
  induction l with
  | nil => exact List.Perm.refl _
  | cons x t ih => exact (insertBy_perm le x (sortBy le t)).trans (ih.cons x)

theorem mem_sortBy {α : Type} {le : α → α → Bool} {l : List α} {x : α} :
    x ∈ sortBy le l ↔ x ∈ l := (sortBy_perm le l).mem_iff

theorem length_sortBy {α : Type} (le : α → α → Bool) (l : List α) :
    (sortBy le l).length = l.length := (sortBy_perm le l).length_eq

theorem catFilterAgent_subset {c : Option String} {l : List LScored} {x : LScored}
    (h : x ∈ catFilterAgent c l) : x ∈ l := by
  cases c with
  | none => exact h
  | some s =>
    rw [catFilterAgent] at h
    split at h
    · exact h
    · exact List.mem_of_mem_filter h

theorem localScored_score {q : String} {now : ℚ} {kb : KB} {r : LScored}
    (h : r ∈ localScored q now kb) :
    r.score = localScore q now r.entry ∧ r.entry ∈ kb.entries := by
  rw [localScored] at h
  obtain ⟨e, he, rfl⟩ := List.mem_map.mp h
  exact ⟨rfl, he⟩

theorem mem_localSearch {q : String} {c : Option String} {limit : ℕ} {now : ℚ}
    {kb : KB} {r : LScored} (h : r ∈ localSearch q c limit now kb) :
    r ∈ localScored q now kb ∧ 0 < r.score := by
  have h1 := List.mem_of_mem_take h
  have h2 := List.mem_filter.mp h1
  exact ⟨catFilterAgent_subset (mem_sortBy.mp h2.1), of_decide_eq_true h2.2⟩

theorem mem_localSearch_unfiltered {q : String} {limit : ℕ} {now : ℚ} {kb : KB}
    {r : LScored} (hmem : r ∈ localScored q now kb) (hpos : 0 < r.score)
    (hlim : kb.entries.length ≤ limit) :
    r ∈ localSearch q none limit now kb := by
  have hs : r ∈ sortBy lexDesc (catFilterAgent none (localScored q now kb)) :=
    mem_sortBy.mpr hmem
  have hf : r ∈ (sortBy lexDesc (catFilterAgent none (localScored q now kb))).filter
      (fun r => decide (0 < r.score)) :=
    List.mem_filter.mpr ⟨hs, decide_eq_true hpos⟩
  have hlen : ((sortBy lexDesc (catFilterAgent none (localScored q now kb))).filter
      (fun r => decide (0 < r.score))).length ≤ limit := by
    calc ((sortBy lexDesc (catFilterAgent none (localScored q now kb))).filter
        (fun r => decide (0 < r.score))).length
        ≤ (sortBy lexDesc (catFilterAgent none (localScored q now kb))).length :=
          List.length_filter_le _ _
      _ = (localScored q now kb).length := by rw [length_sortBy]; rfl
      _ = kb.entries.length := by rw [localScored, List.length_map]
      _ ≤ limit := hlim
  rw [localSearch, List.take_of_length_le hlen]
  exact hf

theorem localScore_empty_ge (now : ℚ) (e : Entry) : 10 ≤ localScore "" now e := by
  have ht : titleHit "" e = true := listSub_nil _
  rw [localScore, ht]
  simp only [if_true]
  omega

theorem localSearch_empty_len (kb : KB) (c : Option String) (limit : ℕ) (now : ℚ) :
    (localSearch "" c limit now kb).length
      = min limit (catFilterAgent c (localScored "" now kb)).length := by
  have hall : ∀ r ∈ sortBy lexDesc (catFilterAgent c (localScored "" now kb)),
      decide (0 < r.score) = true := by
    intro r hr
    have hmem := catFilterAgent_subset (mem_sortBy.mp hr)
    have hsc := (localScored_score hmem).1
    have h10 := localScore_empty_ge now r.entry
    exact decide_eq_true (by omega)
  rw [localSearch, List.filter_eq_self.mpr hall, List.length_take, length_sortBy]

theorem mem_catFilterServer {c : Option String} {l : List QScored} {x : QScored} :
    x ∈ catFilterServer c l ↔ x ∈ l ∧ passCat c x.entry = true := by
  cases c with
  | none => simp [catFilterServer, passCat]
  | some s =>
    by_cases hs : s = "" ∨ s = "all" <;>
      simp [catFilterServer, passCat, hs, List.mem_filter]

theorem mem_dateFromFilter {df : Option ℚ} {l : List QScored} {x : QScored} :
    x ∈ dateFromFilter df l ↔ x ∈ l ∧ passFrom df x.entry = true := by
  cases df with
  | none => simp [dateFromFilter, passFrom]
  | some d => simp [dateFromFilter, passFrom, List.mem_filter]

theorem mem_dateToFilter {dt : Option ℚ} {l : List QScored} {x : QScored} :
    x ∈ dateToFilter dt l ↔ x ∈ l ∧ passTo dt x.entry = true := by
  cases dt with
  | none => simp [dateToFilter, passTo]
  | some d => simp [dateToFilter, passTo, List.mem_filter]

theorem semScoreOf_entry (cache : EmbCache) (qv : List ℚ) (e : Entry) :
    (semScoreOf cache qv e).entry = e := by
  cases h : cacheGet cache e.id <;> simp [semScoreOf, h]

theorem catFilterServer_length_le (c : Option String) (l : List QScored) :
    (catFilterServer c l).length ≤ l.length := by
  cases c with
  | none => exact le_refl _
  | some s =>
    rw [catFilterServer]
    split
    · exact le_refl _
    · exact List.length_filter_le _ _

theorem dateFromFilter_length_le (df : Option ℚ) (l : List QScored) :
    (dateFromFilter df l).length ≤ l.length := by
  cases df with
  | none => exact le_refl _
  | some d => exact List.length_filter_le _ _

theorem dateToFilter_length_le (dt : Option ℚ) (l : List QScored) :
    (dateToFilter dt l).length ≤ l.length := by
  cases dt with
  | none => exact le_refl _
  | some d => exact List.length_filter_le _ _

theorem semRanking_length_le (c : Option String) (df dt : Option ℚ) (kb : KB)
    (cache : EmbCache) (qv : List ℚ) :
    (semRanking c df dt kb cache qv).length ≤ kb.entries.length := by
  calc (semRanking c df dt kb cache qv).length
      ≤ (dateFromFilter df (catFilterServer c
          (sortBy qDesc (semScored kb cache qv)))).length := dateToFilter_length_le _ _
    _ ≤ (catFilterServer c (sortBy qDesc (semScored kb cache qv))).length :=
        dateFromFilter_length_le _ _
    _ ≤ (sortBy qDesc (semScored kb cache qv)).length := catFilterServer_length_le _ _
    _ = (semScored kb cache qv).length := length_sortBy _ _
    _ = kb.entries.length := by rw [semScored, List.length_map]

theorem jsDiv_none (z : Option ℚ) : jsDiv none z = none := by
  cases z <;> rfl

theorem cosineAcc_take (a : List ℚ) : ∀ b : List ℚ, a.length ≤ b.length →
    cosineAcc a b = cosineAcc a (b.take a.length) := by
  induction a with
  | nil => intro b _; rfl
  | cons x xs ih =>
    intro b hb
    cases b with
    | nil => simp at hb
    | cons y ys =>
      have hxy : xs.length ≤ ys.length := by simpa using hb
      simp only [List.length_cons, List.take_succ_cons, cosineAcc]
      rw [ih ys hxy]

theorem cosineAcc_dot_none (a : List ℚ) : ∀ b : List ℚ, b.length < a.length →
    (cosineAcc a b).1 = none := by
  induction a with
  | nil => intro b hb; simp at hb
  | cons x xs ih =>
    intro b hb
    cases b with
    | nil => rfl
    | cons y ys =>
      have hxy : ys.length < xs.length := by simpa using hb
      show jsAdd (cosineAcc xs ys).1 (some (x * y)) = none
      rw [ih ys hxy]
      rfl

/-! ## Claim C2 -/

/-- C2 counterexample: for the query `"ab"` (no token longer than 2 survives)
against an entry it matches nowhere — the query occurs in no searchable field
— the lexical score is 5, not 0: `every` on the empty token array is
vacuously true and awards the 5-point title boost.  This refutes the claim
that the score is 0 whenever no token occurs in the text and the full query
is not a substring of title/summary/source. -/
theorem C2_counterexample :
    ((queryWords "ab").all (fun w => !listSub (entryText entPlain) w)) = true ∧
    titleHit "ab" entPlain = false ∧
    summaryHit "ab" entPlain = false ∧
    sourceHit "ab" entPlain = false ∧
    localScore "ab" 0 entPlain = 5 ∧
    localScore "ab" 0 entPlain ≠ 0 := by
  decide

/-- C2 (amended): the lexical score is a natural number, hence non-negative;
it is 0 when no surviving query token occurs in the searchable text, the
normalized query is a substring of neither title nor summary nor source,
and in addition at least one token survives the length filter (otherwise the
vacuous `every` awards 5) and the entry has no date newer than 90 days
(otherwise the recency boost awards 1 or 2). -/
theorem C2_lexical_zero (q : String) (now : ℚ) (e : Entry)
    (hw : ∀ w ∈ queryWords q, listSub (entryText e) w = false)
    (ht : titleHit q e = false)
    (hs : ∀ s, e.summary = some s → listSub (lowerList s.data) (queryLower q) = false)
    (hsrc : ∀ s, e.source = some s → listSub (lowerList s.data) (queryLower q) = false)
    (hne : queryWords q ≠ [])
    (hd : e.date = none ∨ ∃ d, e.date = some d ∧ 90 ≤ (now - d) / 86400000) :
    localScore q now e = 0 := by
  have hword : wordScore q e = 0 := by
    rw [wordScore, List.filter_eq_nil_iff.mpr]
    · rfl
    · intro w hwm
      rw [hw w hwm]
      exact Bool.false_ne_true
  have hall : allTokensHit q e = false := by
    obtain ⟨w0, hw0⟩ := List.exists_mem_of_ne_nil _ hne
    refine Bool.eq_false_iff.mpr fun hat => ?_
    have h1 := List.all_eq_true.mp hat w0 hw0
    have h2 := listSub_of_title e w0 h1
    rw [hw w0 hw0] at h2
    exact Bool.false_ne_true h2
  have hsum : summaryHit q e = false := by
    cases hsm : e.summary with
    | none => simp [summaryHit, hsm]
    | some s => simp [summaryHit, hsm, hs s hsm]
  have hsrc2 : sourceHit q e = false := by
    cases hsm : e.source with
    | none => simp [sourceHit, hsm]
    | some s => simp [sourceHit, hsm, hsrc s hsm]
  have hdb : dateBoost now e = 0 := by
    rcases hd with hnone | ⟨d, hd2, h90⟩
    · simp [dateBoost, hnone]
    · have h30 : ¬((now - d) / 86400000 < 30) := by intro hlt; linarith
      have h90b : ¬((now - d) / 86400000 < 90) := by intro hlt; linarith
      simp [dateBoost, hd2, h30, h90b]
  rw [localScore, hword, ht, hall, hsum, hsrc2, hdb]
  simp

/-- C2 witness: the amended theorem applied to the query `"xyz"` against the
plain entry (no overlap, a surviving token, no date). -/
theorem C2_lexical_zero_witness :
    (∀ w ∈ queryWords "xyz", listSub (entryText entPlain) w = false) ∧
    titleHit "xyz" entPlain = false ∧
    queryWords "xyz" ≠ [] ∧
    localScore "xyz" 0 entPlain = 0 :=
  ⟨by decide, by decide, by decide,
    C2_lexical_zero "xyz" 0 entPlain (by decide) (by decide)
      (fun s h => by cases h) (fun s h => by cases h) (by decide) (Or.inl rfl)⟩

/-! ## Claim C4 -/

/-- C4 counterexample: the server's fallback text scorer (`textSearch`) adds
5, not 10, when the full normalized query is a substring of the title (query
`"karpathy"`, title `"karpathy"`): its raw score is 6 (one token hit plus the
5-point title boost), below the at-least-10 the claim requires. -/
theorem C4_counterexample :
    titleHit "karpathy" entKarp = true ∧
    textRaw "karpathy" entKarp = 6 ∧
    ¬(10 ≤ textRaw "karpathy" entKarp) := by
  decide

/-- C4 (amended): the agent's lexical scorer (`localSearch`) adds exactly 10
for the full query in the title, else 5 when every surviving token is in the
title, plus 3 for the query in the summary and 2 for the query in the source;
the server's fallback text scorer instead adds 5 for the query in the title
and 3 for the summary — no every-token boost, no source boost — and then
divides the total by (token count + 5). -/
theorem C4_boosts (q : String) (now : ℚ) (e : Entry) :
    localScore q now e = wordScore q e
        + (if titleHit q e then 10 else if allTokensHit q e then 5 else 0)
        + (if summaryHit q e then 3 else 0)
        + (if sourceHit q e then 2 else 0)
        + dateBoost now e
      ∧ textRaw q e = wordScore q e + (if titleHit q e then 5 else 0)
        + (if summaryHit q e then 3 else 0)
      ∧ textScore q e = (textRaw q e : ℚ) / (((queryWords q).length : ℚ) + 5)
      ∧ (titleHit q e = true →
          localScore q now e = wordScore q e + 10 + (if summaryHit q e then 3 else 0)
            + (if sourceHit q e then 2 else 0) + dateBoost now e
          ∧ textRaw q e = wordScore q e + 5 + (if summaryHit q e then 3 else 0)) := by
  refine ⟨rfl, rfl, rfl, fun h => ?_⟩
  rw [localScore, textRaw, h]
  exact ⟨rfl, rfl⟩

/-- C4 witness: the boost decomposition at the query `"karpathy"` against
`entKarp`, whose title contains the query. -/
theorem C4_boosts_witness :
    titleHit "karpathy" entKarp = true ∧
    (localScore "karpathy" 0 entKarp = wordScore "karpathy" entKarp
        + (if titleHit "karpathy" entKarp then 10
           else if allTokensHit "karpathy" entKarp then 5 else 0)
        + (if summaryHit "karpathy" entKarp then 3 else 0)
        + (if sourceHit "karpathy" entKarp then 2 else 0)
        + dateBoost 0 entKarp
      ∧ textRaw "karpathy" entKarp = wordScore "karpathy" entKarp
        + (if titleHit "karpathy" entKarp then 5 else 0)
        + (if summaryHit "karpathy" entKarp then 3 else 0)
      ∧ textScore "karpathy" entKarp = (textRaw "karpathy" entKarp : ℚ)
          / (((queryWords "karpathy").length : ℚ) + 5)
      ∧ (titleHit "karpathy" entKarp = true →
          localScore "karpathy" 0 entKarp = wordScore "karpathy" entKarp + 10
            + (if summaryHit "karpathy" entKarp then 3 else 0)
            + (if sourceHit "karpathy" entKarp then 2 else 0) + dateBoost 0 entKarp
          ∧ textRaw "karpathy" entKarp = wordScore "karpathy" entKarp + 5
            + (if summaryHit "karpathy" entKarp then 3 else 0))) :=
  ⟨by decide, C4_boosts "karpathy" 0 entKarp⟩

/-! ## Claim C5 -/

/-- C5 counterexample: the server's loader `loadKBData` ignores the
modification time: after a first load of `kbOne` (mtime 0), a second call
with changed content `kbNil` (mtime 1) still returns `kbOne`, so the second
snapshot does not reflect the new file content. -/
theorem C5_counterexample :
    (loadKBData ⟨1, kbNil⟩ ((loadKBData ⟨0, kbOne⟩ none).1)).2 = kbOne ∧
    kbOne ≠ kbNil ∧
    (0 : ℕ) ≠ 1 := by
  decide

/-- C5 (amended): the agent's `loadKB` behaves as claimed — an unchanged
mtime returns the identical cached snapshot with the state untouched, a
changed mtime reparses — but the server's `loadKBData` caches
unconditionally: every call after the first returns the first call's
snapshot whatever the backing file now holds. -/
theorem C5_reload (f g : KBFile) (st : AgentKBState) (st0 : Option KB) :
    (g.mtime = f.mtime →
      loadKB g (loadKB f st).1 = ((loadKB f st).1, (loadKB f st).2)) ∧
    (g.mtime ≠ f.mtime → (loadKB g (loadKB f st).1).2 = g.kb) ∧
    (loadKBData g (loadKBData f st0).1).2 = (loadKBData f st0).2 := by
  have hstate : (loadKB f st).1 = ⟨some (loadKB f st).2, some f.mtime⟩ := by
    rcases st with ⟨kc, km⟩
    cases kc with
    | none => cases km <;> rfl
    | some k =>
      cases km with
      | none => rfl
      | some m =>
        by_cases hm : m = f.mtime
        · simp [loadKB, hm]
        · simp [loadKB, hm]
  refine ⟨fun hg => ?_, fun hg => ?_, ?_⟩
  · rw [hstate, loadKB]
    simp [hg]
  · have hg2 : f.mtime ≠ g.mtime := fun h => hg h.symm
    rw [hstate, loadKB]
    simp [hg2]
  · rcases st0 with _ | k
    · rfl
    · rfl

/-- C5 witness: the reload contract at concrete files (same mtime, then a
changed mtime with different content). -/
theorem C5_reload_witness :
    ((0 : ℕ) = 0 →
      loadKB ⟨0, kbOne⟩ (loadKB ⟨0, kbOne⟩ ⟨none, none⟩).1
        = ((loadKB ⟨0, kbOne⟩ ⟨none, none⟩).1, (loadKB ⟨0, kbOne⟩ ⟨none, none⟩).2)) ∧
    ((1 : ℕ) ≠ 0 → (loadKB ⟨1, kbNil⟩ (loadKB ⟨0, kbOne⟩ ⟨none, none⟩).1).2 = kbNil) ∧
    (loadKBData ⟨1, kbNil⟩ (loadKBData ⟨0, kbOne⟩ none).1).2
      = (loadKBData ⟨0, kbOne⟩ none).2 := by
  have h := C5_reload ⟨0, kbOne⟩ ⟨1, kbNil⟩ ⟨none, none⟩ none
  exact ⟨fun _ => (C5_reload ⟨0, kbOne⟩ ⟨0, kbOne⟩ ⟨none, none⟩ none).1 rfl,
    fun _ => h.2.1 (by decide), h.2.2⟩

/-! ## Claim C8 -/

/-- C8 counterexample: `cosineSimilarity` performs no dimensionality check.
For the mismatched vectors `[1]` and `[1, 5]` it silently returns the partial
score 1 (the extra coordinate is ignored), and for `[1, 0]` against `[1]` the
out-of-range read makes the result NaN — in neither case does the comparison
fail with an error. -/
theorem C8_counterexample :
    ([1].length ≠ ([1, 5] : List ℚ).length) ∧
    cosineSimilarity [1] [1, 5] = some 1 ∧
    cosineSimilarity [1, 0] [1] = none := by
  refine ⟨by decide, ?_, ?_⟩
  · show jsDiv (jsAdd (some 0) (some (1 * 1)))
      (jsMul (jsSqrt (jsAdd (some 0) (some (1 * 1))))
        (jsSqrt (jsAdd (some 0) (some (1 * 1))))) = some 1
    norm_num [jsAdd, jsMul, jsSqrt, jsDiv]
  · simp [cosineSimilarity, cosineAcc, jsAdd, jsMul, jsSqrt, jsDiv]

/-- C8 (amended): a dimensionality mismatch is never a hard error: when the
query vector is no longer than the cached one the similarity is silently
computed on the cached vector truncated to the query's length, and when the
query vector is strictly longer the result is NaN (`none`), a value, not a
failure. -/
theorem C8_mismatch (a b : List ℚ) :
    (a.length ≤ b.length →
      cosineSimilarity a b = cosineSimilarity a (b.take a.length)) ∧
    (b.length < a.length → cosineSimilarity a b = none) := by
  constructor
  · intro h
    show jsDiv (cosineAcc a b).1
        (jsMul (jsSqrt (cosineAcc a b).2.1) (jsSqrt (cosineAcc a b).2.2))
      = jsDiv (cosineAcc a (b.take a.length)).1
        (jsMul (jsSqrt (cosineAcc a (b.take a.length)).2.1)
          (jsSqrt (cosineAcc a (b.take a.length)).2.2))
    rw [cosineAcc_take a b h]
  · intro h
    show jsDiv (cosineAcc a b).1
        (jsMul (jsSqrt (cosineAcc a b).2.1) (jsSqrt (cosineAcc a b).2.2)) = none
    rw [cosineAcc_dot_none a b h]
    exact jsDiv_none _

/-- C8 witness: the mismatch behaviour at `[1]` vs `[1, 5]` (truncated
computation) and `[1, 0]` vs `[1]` (NaN). -/
theorem C8_mismatch_witness :
    (([1] : List ℚ).length ≤ ([1, 5] : List ℚ).length →
      cosineSimilarity [1] [1, 5] = cosineSimilarity [1] ([1, 5].take 1)) ∧
    (([1] : List ℚ).length < ([1, 0] : List ℚ).length →
      cosineSimilarity [1, 0] [1] = none) :=
  ⟨fun h => (C8_mismatch [1] [1, 5]).1 h, fun h => (C8_mismatch [1, 0] [1]).2 h⟩

/-! ## Claim C9 -/

/-- C9 counterexample: with a result limit of 1, the category-filtered
ranking surfaces entry 2 while the unfiltered ranking's single slot is taken
by the higher-scoring entry 1, so the filtered result set is not a subset of
the unfiltered one. -/
theorem C9_counterexample :
    ((localSearch "match" (some "y") 1 0 kbAB).map (fun r => r.entry.id)) = [2] ∧
    ((localSearch "match" none 1 0 kbAB).map (fun r => r.entry.id)) = [1] ∧
    ¬((2 : ℕ) ∈ (localSearch "match" none 1 0 kbAB).map (fun r => r.entry.id)) := by
  decide

/-- C9 (amended): in both ranking engines — the agent's lexical `localSearch`
and the server's vector `semanticSearch` (whose vector branch returns its
pre-truncation `semRanking` cut to the limit) — category filtering narrows
the result id set whenever the limit does not truncate the unfiltered
ranking (limit at least the number of entries); with truncation the filtered
search can surface ids outside the unfiltered top-limit. -/
theorem C9_narrowing (q : String) (cat : String) (limit : ℕ) (now : ℚ)
    (kb : KB) (cache : EmbCache) (qv : List ℚ) (df dt : Option ℚ) (i : ℕ)
    (hlim : kb.entries.length ≤ limit) (hne : cache.isEmpty = false) :
    ((∃ r ∈ localSearch q (some cat) limit now kb, r.entry.id = i) →
      ∃ r ∈ localSearch q none limit now kb, r.entry.id = i) ∧
    semanticSearch q (some cat) df dt limit kb cache true (.ok qv)
      = .ok ((semRanking (some cat) df dt kb cache qv).take limit) ∧
    semanticSearch q none df dt limit kb cache true (.ok qv)
      = .ok ((semRanking none df dt kb cache qv).take limit) ∧
    ((∃ r ∈ (semRanking (some cat) df dt kb cache qv).take limit, r.entry.id = i) →
      ∃ r ∈ (semRanking none df dt kb cache qv).take limit, r.entry.id = i) := by
  refine ⟨fun hf => ?_, by simp [semanticSearch, hne], by simp [semanticSearch, hne],
    fun hf => ?_⟩
  · obtain ⟨r, hr, hid⟩ := hf
    obtain ⟨hmem, hpos⟩ := mem_localSearch hr
    exact ⟨r, mem_localSearch_unfiltered hmem hpos hlim, hid⟩
  · obtain ⟨r, hr, hid⟩ := hf
    have h1 := List.mem_of_mem_take hr
    rw [semRanking] at h1
    have h2 := mem_dateToFilter.mp h1
    have h3 := mem_dateFromFilter.mp h2.1
    have h4 := mem_catFilterServer.mp h3.1
    have hmem : r ∈ semRanking none df dt kb cache qv := by
      rw [semRanking]
      exact mem_dateToFilter.mpr
        ⟨mem_dateFromFilter.mpr ⟨mem_catFilterServer.mpr ⟨h4.1, rfl⟩, h3.2⟩, h2.2⟩
    have hlen : (semRanking none df dt kb cache qv).length ≤ limit :=
      le_trans (semRanking_length_le none df dt kb cache qv) hlim
    rw [List.take_of_length_le hlen]
    exact ⟨r, hmem, hid⟩

/-- C9 witness: with limit 2 (no truncation) over the two-entry KB and a
one-element embedding cache, the narrowing contract for both engines. -/
theorem C9_narrowing_witness :
    kbAB.entries.length ≤ 2 ∧
    ([((1 : ℕ), ([1] : List ℚ))] : EmbCache).isEmpty = false ∧
    (((∃ r ∈ localSearch "match" (some "y") 2 0 kbAB, r.entry.id = 2) →
       ∃ r ∈ localSearch "match" none 2 0 kbAB, r.entry.id = 2) ∧
     semanticSearch "match" (some "y") none none 2 kbAB [(1, [1])] true (.ok [1])
       = .ok ((semRanking (some "y") none none kbAB [(1, [1])] [1]).take 2) ∧
     semanticSearch "match" none none none 2 kbAB [(1, [1])] true (.ok [1])
       = .ok ((semRanking none none none kbAB [(1, [1])] [1]).take 2) ∧
     ((∃ r ∈ (semRanking (some "y") none none kbAB [(1, [1])] [1]).take 2,
         r.entry.id = 2) →
       ∃ r ∈ (semRanking none none none kbAB [(1, [1])] [1]).take 2,
         r.entry.id = 2)) :=
  ⟨by decide, rfl,
    C9_narrowing "match" "y" 2 0 kbAB [(1, [1])] [1] none none 2 (by decide) rfl⟩

/-! ## Claim C10 -/

/-- C10: for the empty query every entry scores at least 10 (the empty
normalized query is a substring of every title, earning the 10-point boost),
so every entry passes the positive-score filter and the lexical search
returns `min(limit, number of category-filtered entries)` entries. -/
theorem C10_empty_query (kb : KB) (c : Option String) (limit : ℕ) (now : ℚ) :
    (∀ r ∈ localScored "" now kb, 10 ≤ r.score) ∧
    (localSearch "" c limit now kb).length
      = min limit (catFilterAgent c (localScored "" now kb)).length := by
  constructor
  · intro r hr
    have hsc := (localScored_score hr).1
    rw [hsc]
    exact localScore_empty_ge now r.entry
  · exact localSearch_empty_len kb c limit now

/-- C10 witness: the empty-query behaviour on the one-entry KB. -/
theorem C10_empty_query_witness :
    (∀ r ∈ localScored "" 0 kbOne, 10 ≤ r.score) ∧
    (localSearch "" none 10 0 kbOne).length
      = min 10 (catFilterAgent none (localScored "" 0 kbOne)).length :=
  C10_empty_query kbOne none 10 0

/-! ## Claim C3 -/

/-- C3: both lexical searches (`localSearch` and the server's `textSearch`)
discard entries whose score is not strictly positive before truncating, while
the vector strategy (`semanticSearch` with a non-empty cache and a provider
key) keeps every category/date-filtered entry in its pre-truncation ranking
regardless of score — including entries scored 0 for a missing cached
embedding. -/
theorem C3_zero_score_policy
    (q : String) (c : Option String) (df dt : Option ℚ) (limit : ℕ) (now : ℚ)
    (kb : KB) (cache : EmbCache) (qv : List ℚ)
    (hne : cache.isEmpty = false) :
    (∀ r ∈ localSearch q c limit now kb, 0 < r.score) ∧
    (∀ r ∈ textSearch q c df dt limit kb, positiveQ r = true) ∧
    semanticSearch q c df dt limit kb cache true (.ok qv)
      = .ok ((semRanking c df dt kb cache qv).take limit) ∧
    (∀ e ∈ kb.entries, passesServer c df dt e = true →
      ∃ r ∈ semRanking c df dt kb cache qv, r.entry = e) := by
  refine ⟨fun r hr => (mem_localSearch hr).2, fun r hr => ?_, ?_, ?_⟩
  · exact (List.mem_filter.mp (List.mem_of_mem_take hr)).2
  · simp [semanticSearch, hne]
  · intro e he hp
    have h1 : semScoreOf cache qv e ∈ semScored kb cache qv :=
      List.mem_map_of_mem _ he
    have h2 : semScoreOf cache qv e ∈ sortBy qDesc (semScored kb cache qv) :=
      mem_sortBy.mpr h1
    rw [passesServer, Bool.and_eq_true, Bool.and_eq_true] at hp
    have hent := semScoreOf_entry cache qv e
    refine ⟨semScoreOf cache qv e, ?_, hent⟩
    rw [semRanking]
    refine mem_dateToFilter.mpr
      ⟨mem_dateFromFilter.mpr ⟨mem_catFilterServer.mpr ⟨h2, ?_⟩, ?_⟩, ?_⟩
    · rw [hent]; exact hp.1.1
    · rw [hent]; exact hp.1.2
    · rw [hent]; exact hp.2

/-- C3 witness: the zero-score policy at a one-entry KB with a one-element
embedding cache. -/
theorem C3_zero_score_policy_witness :
    ([((1 : ℕ), ([1] : List ℚ))] : EmbCache).isEmpty = false ∧
    ((∀ r ∈ localSearch "a" none 10 0 kbOne, 0 < r.score) ∧
     (∀ r ∈ textSearch "a" none none none 10 kbOne, positiveQ r = true) ∧
     semanticSearch "a" none none none 10 kbOne [(1, [1])] true (.ok [1])
       = .ok ((semRanking none none none kbOne [(1, [1])] [1]).take 10) ∧
     (∀ e ∈ kbOne.entries, passesServer none none none e = true →
       ∃ r ∈ semRanking none none none kbOne [(1, [1])] [1], r.entry = e)) :=
  ⟨rfl, C3_zero_score_policy "a" none none none 10 0 kbOne [(1, [1])] [1] rfl⟩

/-! ## Evaluation of the server on the concrete degraded request -/

theorem textScore_entSumm : textScore "karpathy" entSumm = 3 / 2 := by
  rw [textScore, show textRaw "karpathy" entSumm = 9 from by decide,
    show (queryWords "karpathy").length = 1 from by decide]
  norm_num

theorem textSearch_kbSumm :
    textSearch "karpathy" none none none 10 kbSumm = [⟨entSumm, some (3 / 2)⟩] := by
  show (([⟨entSumm, some (textScore "karpathy" entSumm)⟩] : List QScored).filter
    positiveQ).take 10 = [⟨entSumm, some (3 / 2)⟩]
  rw [textScore_entSumm]
  have h : positiveQ ⟨entSumm, some ((3 : ℚ) / 2)⟩ = true := by
    show decide ((0 : ℚ) < 3 / 2) = true
    norm_num
  simp [List.filter_cons, h]

theorem postSearch_kbSumm :
    postSearch reqSumm kbSumm [] false (.error ()) none
      = (.ok envSumm, ⟨true, false, false⟩) := by
  have hsem : semanticSearch (reqSumm.query.getD "") reqSumm.category
      reqSumm.dateFrom reqSumm.dateTo reqSumm.limit kbSumm [] false (.error ())
      = .ok [⟨entSumm, some (3 / 2)⟩] := by
    rw [← textSearch_kbSumm]
    rfl
  have hjr : jsRound ((3 : ℚ) / 2 * 100) = 150 := by
    rw [show ((3 : ℚ) / 2 * 100) = 150 from by norm_num]
    decide
  rw [postSearch, hsem, show (!queryValid reqSumm.query) = false from by decide]
  show ((.ok ⟨some (foundMsg 1), [⟨entSumm, some (jsRound ((3 : ℚ) / 2 * 100))⟩], 1⟩ :
      ServerResp), (⟨true, false, false⟩ : STrace))
    = ((.ok envSumm : ServerResp), (⟨true, false, false⟩ : STrace))
  rw [hjr]
  rfl

/-! ## Claim C1 -/

/-- C1 counterexample: with an empty embedding cache and no provider key —
one of the remote-path failures the claim enumerates — the server falls back
to its text scorer and returns a success payload, and the agent passes it
through with `fallback = false`: the degraded flag the claim requires is not
set on this path. -/
theorem C1_counterexample :
    semanticSearch "karpathy" none none none 10 kbSumm [] false (.error ())
      = .ok (textSearch "karpathy" none none none 10 kbSumm) ∧
    (postSearch reqSumm kbSumm [] false (.error ()) none).1 = .ok envSumm ∧
    (apiSearch "karpathy" none 10 0 kbSumm (.response 200 (some envSumm))).fallback
      = false ∧
    (apiSearch "karpathy" none 10 0 kbSumm (.response 200 (some envSumm))).results
      ≠ [] := by
  refine ⟨rfl, by rw [postSearch_kbSumm], rfl, by decide⟩

/-- C1 (amended): every failure the agent's fetch can see — network failure,
non-2xx status, unparsable body — yields the non-error fallback envelope,
whose entries are exactly the local lexical ranking and whose `fallback` flag
is true; and with an empty cache or no provider key the server degrades to
its own text scorer — but that degradation produces an ordinary success
payload, and the agent marks any 2xx payload with `fallback = false`, so this
failure mode is not flagged. -/
theorem C1_fallback_behaviour
    (q : String) (c : Option String) (limit : ℕ) (now : ℚ) (kb kb2 : KB)
    (s : ℕ) (env : ServerEnvelope) (hs : statusOk s = false)
    (q2 : String) (c2 : Option String) (df dt : Option ℚ) (limit2 : ℕ)
    (hk : Bool) (qe : Except Unit (List ℚ)) (cache : EmbCache) :
    apiSearch q c limit now kb .netFail = apiFallbackEnv q c limit now kb ∧
    apiSearch q c limit now kb (.response s (some env))
      = apiFallbackEnv q c limit now kb ∧
    (∀ s2, apiSearch q c limit now kb (.response s2 none)
      = apiFallbackEnv q c limit now kb) ∧
    (apiFallbackEnv q c limit now kb).fallback = true ∧
    (apiFallbackEnv q c limit now kb).results
      = (localSearch q c limit now kb).map displayLex ∧
    semanticSearch q2 c2 df dt limit2 kb2 [] hk qe
      = .ok (textSearch q2 c2 df dt limit2 kb2) ∧
    semanticSearch q2 c2 df dt limit2 kb2 cache false qe
      = .ok (textSearch q2 c2 df dt limit2 kb2) ∧
    (∀ env2, (apiSearch q c limit now kb (.response 200 (some env2))).fallback
      = false) := by
  refine ⟨rfl, ?_, fun s2 => rfl, rfl, rfl, rfl, ?_, fun env2 => rfl⟩
  · rw [apiSearch, hs]
    rfl
  · simp [semanticSearch]

/-- C1 witness: the fallback behaviour at status 500 over the one-entry KB. -/
theorem C1_fallback_behaviour_witness :
    statusOk 500 = false ∧
    (apiSearch "q" none 10 0 kbOne .netFail = apiFallbackEnv "q" none 10 0 kbOne ∧
     apiSearch "q" none 10 0 kbOne (.response 500 (some ⟨none, [], 0⟩))
       = apiFallbackEnv "q" none 10 0 kbOne ∧
     (∀ s2, apiSearch "q" none 10 0 kbOne (.response s2 none)
       = apiFallbackEnv "q" none 10 0 kbOne) ∧
     (apiFallbackEnv "q" none 10 0 kbOne).fallback = true ∧
     (apiFallbackEnv "q" none 10 0 kbOne).results
       = (localSearch "q" none 10 0 kbOne).map displayLex ∧
     semanticSearch "q" none none none 10 kbOne [] true (.error ())
       = .ok (textSearch "q" none none none 10 kbOne) ∧
     semanticSearch "q" none none none 10 kbOne [(1, [1])] false (.error ())
       = .ok (textSearch "q" none none none 10 kbOne) ∧
     (∀ env2, (apiSearch "q" none 10 0 kbOne (.response 200 (some env2))).fallback
       = false)) :=
  ⟨by decide, C1_fallback_behaviour "q" none 10 0 kbOne kbOne 500 ⟨none, [], 0⟩
    (by decide) "q" none none none 10 true (.error ()) [(1, [1])]⟩

/-! ## Claim C6 -/

/-- C6 counterexample: the agent-level `search` does not validate the query:
for the empty query (the server answers 400, so the fetch path throws) it
returns a success result whose data holds one locally ranked entry — a search
was performed and entries were touched, not a ValidationError. -/
theorem C6_counterexample :
    (search "" none 10 true 0 kbOne (.response 400 none)).success = true ∧
    (search "" none 10 true 0 kbOne (.response 400 none)).data.results.length
      = 1 := by
  decide

/-- C6 (amended): the HTTP handler rejects a missing or blank query with a
400 client error before searching — no entries touched, no provider calls —
but the agent-level `search` performs no such validation: an empty query
falls through to the local search and returns a success envelope built from
`localSearch`. -/
theorem C6_validation (req : ServerReq) (kb : KB) (cache : EmbCache)
    (hasKey : Bool) (qe : Except Unit (List ℚ)) (nar : Option String)
    (hq : queryValid req.query = false)
    (c : Option String) (limit : ℕ) (now : ℚ) (kb2 : KB) (s : ℕ) :
    postSearch req kb cache hasKey qe nar = (.badRequest, ⟨false, false, false⟩) ∧
    search "" c limit true now kb2 (.response s none)
      = ⟨true, apiFallbackEnv "" c limit now kb2⟩ ∧
    (apiFallbackEnv "" c limit now kb2).results
      = (localSearch "" c limit now kb2).map displayLex := by
  refine ⟨?_, rfl, rfl⟩
  rw [postSearch, hq]
  rfl

/-- C6 witness: the validation contract at a request with no query. -/
theorem C6_validation_witness :
    queryValid (none : Option String) = false ∧
    (postSearch ⟨none, none, none, none, 10, true⟩ kbOne [] false (.error ()) none
       = (.badRequest, ⟨false, false, false⟩) ∧
     search "" none 10 true 0 kbOne (.response 400 none)
       = ⟨true, apiFallbackEnv "" none 10 0 kbOne⟩ ∧
     (apiFallbackEnv "" none 10 0 kbOne).results
       = (localSearch "" none 10 0 kbOne).map displayLex) :=
  ⟨by decide, C6_validation ⟨none, none, none, none, 10, true⟩ kbOne [] false
    (.error ()) none (by decide) none 10 0 kbOne 400⟩

/-! ## Claim C7 -/

/-- C7 counterexample: when the server's `/search` endpoint answers from its
text fallback (empty cache, no key), a lexically scored entry is mapped with
`round(score * 100)` and the displayed relevance is 150, outside the claimed
0–100 range. -/
theorem C7_counterexample :
    (postSearch reqSumm kbSumm [] false (.error ()) none).1 = .ok envSumm ∧
    envSumm.results = [⟨entSumm, some 150⟩] ∧
    ¬((150 : ℤ) ≤ 100) := by
  refine ⟨by rw [postSearch_kbSumm], rfl, by decide⟩

/-- C7 (amended): the agent's lexical fallback maps each retained score to
`min(score * 10, 100)`, which always lies in 0–100; the server maps whatever
score `semanticSearch` produced — cosine similarity or a fallback text score
— to `round(score * 100)`, a mapping not confined to 0–100 (the text
fallback can exceed 100). -/
theorem C7_relevance (q : String) (c : Option String) (limit : ℕ) (now : ℚ)
    (kb : KB) (r : SDisplay) (hr : r ∈ (apiFallbackEnv q c limit now kb).results)
    (l : List QScored) (x : QScored) (hx : x ∈ l) :
    (∃ v : ℤ, r.relevance = some v ∧ 0 ≤ v ∧ v ≤ 100) ∧
    (⟨x.entry, x.score.map (fun sc => jsRound (sc * 100))⟩ : SDisplay)
      ∈ serverDisplay l := by
  constructor
  · obtain ⟨r0, _, rfl⟩ := List.mem_map.mp hr
    refine ⟨((min (r0.score * 10) 100 : ℕ) : ℤ), rfl, by positivity, ?_⟩
    exact_mod_cast Nat.min_le_right (r0.score * 10) 100
  · exact List.mem_map_of_mem _ hx

/-- C7 witness: the relevance contract at the empty query on the one-entry
KB (agent side) and a singleton scored list (server side). -/
theorem C7_relevance_witness :
    ((⟨entPlain, some 100⟩ : SDisplay) ∈ (apiFallbackEnv "" none 10 0 kbOne).results) ∧
    ((⟨entPlain, some 0⟩ : QScored) ∈ ([⟨entPlain, some 0⟩] : List QScored)) ∧
    ((∃ v : ℤ, (⟨entPlain, some 100⟩ : SDisplay).relevance = some v ∧ 0 ≤ v ∧ v ≤ 100) ∧
     (⟨entPlain, (some (0 : ℚ)).map (fun sc => jsRound (sc * 100))⟩ : SDisplay)
       ∈ serverDisplay [⟨entPlain, some 0⟩]) :=
  ⟨by decide, by decide,
    C7_relevance "" none 10 0 kbOne ⟨entPlain, some 100⟩ (by decide)
      [⟨entPlain, some 0⟩] ⟨entPlain, some 0⟩ (by decide)⟩
